import Mathlib

/-!
Verification of the Mumbai LLM evaluation pipeline against its design
specification.

The repository has two entry points:
* `mumbai_llm_test.js` — multi-model batch mode (`runTests`), with the pure
  scoring function `scoreAnswer`, the availability check `isModelAvailable`,
  per-model result files and a final report;
* `askOllama.js` — single-model mode (`processQuestions`), with a startup
  ping (`checkOllama`), an incrementally rewritten `results.json`, and a
  fixed delay between questions.

The JavaScript is embedded shallowly:
* JS strings are Lean `String`s operated on through their character lists
  (for the ASCII data the program handles, JS UTF-16 lengths and Lean
  character counts coincide);
* JS numbers that only ever hold integers are `Int`/`Nat`; the batch-mode
  running score, which accumulates halves of integers, is `ℚ` (exact for
  the values that occur, where JS doubles are also exact);
* the external world (chat endpoint, model list, filesystem write outcomes,
  clocks) is passed in as oracle functions, and each run is interpreted into
  an explicit event trace plus its observable outputs.
-/

/-! ### JS string primitives used by `scoreAnswer` -/

/-- `firstMatches needle hay` holds when `needle` is an initial segment of
`hay`. -/
def firstMatches : List Char → List Char → Bool
  | [], _ => true
  | _ :: _, [] => false
  | a :: as, b :: bs => a = b && firstMatches as bs

/-- Embedding of JS `String.prototype.includes`: `needle` occurs as a
contiguous substring of the character list `hay`. -/
def jsIncludes : List Char → List Char → Bool
  | [], needle => needle.isEmpty
  | c :: rest, needle => firstMatches needle (c :: rest) || jsIncludes rest needle

/-- Embedding of JS `Math.max` on integer-valued numbers. -/
def jsMax (a b : Int) : Int := if a ≤ b then b else a

/-- Embedding of JS `Math.min` on integer-valued numbers. -/
def jsMin (a b : Int) : Int := if a ≤ b then a else b

/-- Embedding of JS `String.prototype.toLowerCase` for the ASCII range
(`Char.toLower` lowercases exactly the ASCII uppercase letters). -/
def jsToLower (s : List Char) : List Char :=
  s.map Char.toLower

/-- Embedding of JS `String.prototype.split(c)` for a single-character
separator: fields between occurrences of `c`, keeping empty fields, so that
the result of splitting `""` is `[""]` (one empty field), as in JS. -/
def splitChar (c : Char) : List Char → List (List Char)
  | [] => [[]]
  | x :: xs =>
    match splitChar c xs with
    | [] => [[]]
    | g :: gs => if x = c then [] :: g :: gs else (x :: g) :: gs

/-! ### The scorer, `scoreAnswer` (mumbai_llm_test.js, lines 24–34) -/

/-- Embedding of `scoreAnswer(answer, questionId)` from
`mumbai_llm_test.js`, translated line by line: base 50; −20 if
`answer.length < 50`; +10 if `answer.length > 500`; −15 if the answer
includes `"sorry"` or `"not sure"`; +5 if `answer.split(' ').length > 100`;
+20 if `questionId === 1` and the lowercased answer includes `"vada pav"`;
+15 if `questionId === 12` and the lowercased answer includes
`"financial capital"`; finally `Math.max(0, Math.min(100, score))`. -/
def scoreAnswer (answer : String) (questionId : Int) : Int :=
  let cs := answer.toList
  let score : Int := 50
  let score := if cs.length < 50 then score - 20 else score
  let score := if cs.length > 500 then score + 10 else score
  let score :=
    if jsIncludes cs (("sorry").toList) || jsIncludes cs (("not sure").toList) then
      score - 15
    else score
  let score := if (splitChar ' ' cs).length > 100 then score + 5 else score
  let score :=
    if questionId == 1 && jsIncludes (jsToLower cs) (("vada pav").toList) then
      score + 20
    else score
  let score :=
    if questionId == 12 && jsIncludes (jsToLower cs) (("financial capital").toList) then
      score + 15
    else score
  jsMax 0 (jsMin 100 score)

/-! ### The scorer as the spec words it (spec §4.3) -/

/-- Modelled from the spec (§4.3 step 5): the whitespace-delimited word
count of a string — the number of maximal nonempty runs of non-whitespace
characters. -/
def specWordCount (s : List Char) : Nat :=
  (((s.splitOnP Char.isWhitespace)).filter (fun w => ¬ w.isEmpty)).length

/-- Modelled from the spec (§4.3): the scoring algorithm exactly as the
specification words it, with step 5 reading "if the whitespace-delimited
word count of answer exceeds 100, add 5".  This is the spec-side definition
claim C1 compares `scoreAnswer` against. -/
def scoreSpec (answer : String) (questionId : Int) : Int :=
  let cs := answer.toList
  let base : Int := 50
  let lenShort : Int := if cs.length < 50 then -20 else 0
  let lenLong : Int := if cs.length > 500 then 10 else 0
  let apology : Int :=
    if jsIncludes cs (("sorry").toList) || jsIncludes cs (("not sure").toList) then -15 else 0
  let wordsAdj : Int := if specWordCount cs > 100 then 5 else 0
  let vadaPav : Int :=
    if questionId == 1 && jsIncludes (jsToLower cs) (("vada pav").toList) then 20 else 0
  let finCap : Int :=
    if questionId == 12 && jsIncludes (jsToLower cs) (("financial capital").toList) then 15 else 0
  jsMax 0 (jsMin 100 (base + lenShort + lenLong + apology + wordsAdj + vadaPav + finCap))

/-- The scoring algorithm as amended by claim C1's counterexample: identical
to the spec's wording except that step 5 counts the fields of the answer
split on single space characters, empty fields included (JS `split(' ')`),
rather than whitespace-delimited words. -/
def scoreSpecAmended (answer : String) (questionId : Int) : Int :=
  let cs := answer.toList
  let base : Int := 50
  let lenShort : Int := if cs.length < 50 then -20 else 0
  let lenLong : Int := if cs.length > 500 then 10 else 0
  let apology : Int :=
    if jsIncludes cs (("sorry").toList) || jsIncludes cs (("not sure").toList) then -15 else 0
  let wordsAdj : Int := if (splitChar ' ' cs).length > 100 then 5 else 0
  let vadaPav : Int :=
    if questionId == 1 && jsIncludes (jsToLower cs) (("vada pav").toList) then 20 else 0
  let finCap : Int :=
    if questionId == 12 && jsIncludes (jsToLower cs) (("financial capital").toList) then 15 else 0
  jsMax 0 (jsMin 100 (base + lenShort + lenLong + apology + wordsAdj + vadaPav + finCap))

/-! ### Shared data model (spec §3, §6) -/

/-- A question record from `questions.json`: `{ id, category, english,
hindi }`. -/
structure Question where
  id : Int
  category : String
  english : String
  hindi : String
deriving DecidableEq

/-! ### Single-model mode: `askOllama.js` (`processQuestions`)

The single-model runner is interpreted into an explicit event trace.  The
chat endpoint is an oracle `Nat → Except String String` giving, for each
chat call of the run in order (call 0 is the `checkOllama` ping, call `i+1`
is question `i`'s call), either the response text or the thrown error
message.  Timestamps are an oracle `Nat → String` (wall-clock ISO strings
are outside the embedding).  `results.json` is `Option (List SResult)`:
`none` when the file is absent, `some l` when it holds the JSON array `l`.
The questions file is `Option (List Question)`: `none` when it is missing
or unparseable (both make `fs.readFile`/`JSON.parse` throw). -/

/-- One entry of `results.json` in single-model mode:
`{ id, question, answer, timestamp }`. -/
structure SResult where
  id : Int
  question : String
  answer : String
  timestamp : String
deriving DecidableEq

/-- Observable events of a single-model run, in program order. -/
inductive SEvent where
  | createEmptyFile
  | chatCall (prompt : String)
  | fileWrite (contents : List SResult)
  | logFailure (index : Nat) (msg : String)
  | sleep (ms : Nat)
  | logTopError (msg : String)
deriving DecidableEq

/-- How the single-model process ends: `exited c` for an explicit
`process.exit(c)`, `completed` for falling off the end (exit code 0). -/
inductive ExitKind where
  | exited (code : Nat)
  | completed
deriving DecidableEq

/-- The observable outcome of a single-model run: its event trace, how the
process ended, the entries this run appended, and the final contents of
`results.json`. -/
structure SingleRun where
  trace : List SEvent
  exit : ExitKind
  produced : List SResult
  finalFile : List SResult
deriving DecidableEq

/-- The per-question loop of `processQuestions` (askOllama.js lines 42–68):
for question `i` (chat call `i+1`), on a thrown chat error log the failure
and move on — the JS `catch` skips both the file write and the 2000 ms
sleep, which sit inside the `try`; on success push the new entry, rewrite
`results.json` with everything accumulated so far, and sleep 2000 ms.
Returns the events and the entries produced from this point on. -/
def singleLoop (oracle : Nat → Except String String) (ts : Nat → String)
    (base : List SResult) : Nat → List SResult → List Question → List SEvent × List SResult
  | _, _, [] => ([], [])
  | idx, acc, q :: rest =>
    match oracle (idx + 1) with
    | Except.error e =>
      let r := singleLoop oracle ts base (idx + 1) acc rest
      (SEvent.chatCall q.english :: SEvent.logFailure idx e :: r.1, r.2)
    | Except.ok content =>
      let entry : SResult := ⟨q.id, q.english, content, ts idx⟩
      let r := singleLoop oracle ts base (idx + 1) (acc ++ [entry]) rest
      (SEvent.chatCall q.english :: SEvent.fileWrite (base ++ acc ++ [entry]) ::
         SEvent.sleep 2000 :: r.1,
       entry :: r.2)

/-- Embedding of `processQuestions` (askOllama.js): `initResultsFile`
creates `results.json` as `[]` only when it is absent; `checkOllama` issues
a ping chat call and calls `process.exit(1)` if it throws; then
`questions.json` is read (a missing or invalid file throws, which the
top-level `.catch(console.error)` logs, ending the process normally); then
the per-question loop runs. -/
def processQuestions (oracle : Nat → Except String String) (ts : Nat → String)
    (resultsFile : Option (List SResult)) (questionsFile : Option (List Question)) : SingleRun :=
  let initEvents : List SEvent :=
    match resultsFile with
    | some _ => []
    | none => [SEvent.createEmptyFile]
  let base : List SResult := resultsFile.getD []
  match oracle 0 with
  | Except.error _ =>
    ⟨initEvents ++ [SEvent.chatCall ("ping")], ExitKind.exited 1, [], base⟩
  | Except.ok _ =>
    match questionsFile with
    | none =>
      ⟨initEvents ++ [SEvent.chatCall ("ping"), SEvent.logTopError ("questions file unreadable")],
       ExitKind.completed, [], base⟩
    | some qs =>
      let r := singleLoop oracle ts base 0 [] qs
      ⟨initEvents ++ SEvent.chatCall ("ping") :: r.1, ExitKind.completed, r.2, base ++ r.2⟩

/-- Discriminator: is this event a chat call? -/
def SEvent.isChat : SEvent → Bool
  | SEvent.chatCall _ => true
  | _ => false

/-- Discriminator: is this event a per-question failure log? -/
def SEvent.isFailLog : SEvent → Bool
  | SEvent.logFailure _ _ => true
  | _ => false

/-- Discriminator: is this event a write of `results.json`? -/
def SEvent.isResultWrite : SEvent → Bool
  | SEvent.fileWrite _ => true
  | _ => false

/-- Discriminator: is this event a sleep? -/
def SEvent.isSleep : SEvent → Bool
  | SEvent.sleep _ => true
  | _ => false

/-- Does this chat-oracle response represent a thrown error? -/
def isErrCall (r : Except String String) : Bool :=
  match r with
  | Except.error _ => true
  | Except.ok _ => false

/-- The number of questions, starting at call index `i`, whose chat call
succeeds. -/
def okCount (oracle : Nat → Except String String) : Nat → List Question → Nat
  | _, [] => 0
  | i, _ :: rest => (if isErrCall (oracle i) then 0 else 1) + okCount oracle (i + 1) rest

/-! ### Batch mode: `mumbai_llm_test.js` (`runTests`)

The batch runner is interpreted the same way.  Oracles: `chatO model qidx
lang` is the outcome of the `ollama.chat` call for a model, question index
and language (the thrown message or the response text); `timeO` gives the
elapsed seconds of each call (wall clocks are outside the embedding);
`listResp` is the outcome of `ollama.list()` — the installed model names or
a thrown error; `writeO path` is `some msg` when `fs.writeFile` on `path`
throws and `none` when it succeeds; `startT`/`endT` are the two
`new Date().toISOString()` reads. -/

/-- The language variant of a chat call. -/
inductive Lang where
  | en
  | hi
deriving DecidableEq

/-- A JSON scalar as it lands in the report: the embedding keeps numbers
and strings apart because `avg_score` is produced by `.toFixed(1)`. -/
inductive JVal where
  | num (q : ℚ)
  | str (s : String)
deriving DecidableEq

/-- One language's answer block of a batch result entry:
`{ question, answer, time_sec, chars, score }`. -/
structure ARecord where
  question : String
  answer : String
  time_sec : ℚ
  chars : Nat
  score : Int
deriving DecidableEq

/-- One batch result entry per question: the success shape
`{ id, category, english, hindi }` or the failure shape `{ id, error }`. -/
inductive MEntry where
  | success (id : Int) (category : String) (english : ARecord) (hindi : ARecord)
  | failure (id : Int) (msg : String)
deriving DecidableEq

/-- A model's summary in the final report:
`{ avg_score, total_questions, details_file }`. -/
structure ModelSummary where
  avg_score : JVal
  total_questions : Nat
  details_file : String
deriving DecidableEq

/-- The final report: `{ start_time, models, end_time }`, with `models` an
insertion-ordered mapping from model name to summary. -/
structure FinalReport where
  start_time : String
  end_time : String
  models : List (String × ModelSummary)
deriving DecidableEq

/-- Observable events of a batch run, in program order. -/
inductive BEvent where
  | chatCall (model : String) (qidx : Nat) (lang : Lang)
  | sleep (ms : Nat)
  | logError (model : String) (qid : Int) (msg : String)
  | skipModel (model : String)
  | writeModelFile (model : String) (path : String) (contents : List MEntry)
  | writeFailed (path : String) (msg : String)
  | writeFinalReport (report : FinalReport)
deriving DecidableEq

/-- The observable outcome of a batch run: its event trace and the final
report, `none` when the run aborted (or the report write itself failed)
before `final_report.json` was persisted. -/
structure BatchRun where
  trace : List BEvent
  finalReportWritten : Option FinalReport
deriving DecidableEq

/-- Embedding of `isModelAvailable` (mumbai_llm_test.js lines 37–44):
`ollama.list()` is queried and the model counts as available when some
installed name has the model string as a prefix (`m.name.startsWith`,
embedded through `firstMatches` on character lists); any thrown error is
swallowed by the `catch` and yields `false`. -/
def isModelAvailable (model : String) (listResp : Except String (List String)) : Bool :=
  match listResp with
  | Except.error _ => false
  | Except.ok names => names.any (fun n => firstMatches model.toList n.toList)

/-- Embedding of the per-question loop of `runTests` (mumbai_llm_test.js
lines 67–110): for each question ask the English prompt, sleep 1000 ms, ask
the Hindi prompt, score both; any thrown error is caught, recorded as an
`{ id, error }` entry and logged; the 1500 ms pacing sleep after the
`try`/`catch` runs regardless of outcome.  Returns the events, the result
entries in question order, and the accumulated `totalScore` (the sum of
`(scoreEN + scoreHI) / 2` over successful questions). -/
def runModelQuestions (chatO : String → Nat → Lang → Except String String)
    (timeO : String → Nat → Lang → ℚ) (model : String) :
    Nat → List Question → List BEvent × List MEntry × ℚ
  | _, [] => ([], [], 0)
  | qidx, q :: rest =>
    match chatO model qidx Lang.en with
    | Except.error e =>
      let r := runModelQuestions chatO timeO model (qidx + 1) rest
      (BEvent.chatCall model qidx Lang.en :: BEvent.logError model q.id e ::
         BEvent.sleep 1500 :: r.1,
       MEntry.failure q.id e :: r.2.1, r.2.2)
    | Except.ok aEN =>
      match chatO model qidx Lang.hi with
      | Except.error e =>
        let r := runModelQuestions chatO timeO model (qidx + 1) rest
        (BEvent.chatCall model qidx Lang.en :: BEvent.sleep 1000 ::
           BEvent.chatCall model qidx Lang.hi :: BEvent.logError model q.id e ::
           BEvent.sleep 1500 :: r.1,
         MEntry.failure q.id e :: r.2.1, r.2.2)
      | Except.ok aHI =>
        let sEN := scoreAnswer aEN q.id
        let sHI := scoreAnswer aHI q.id
        let r := runModelQuestions chatO timeO model (qidx + 1) rest
        (BEvent.chatCall model qidx Lang.en :: BEvent.sleep 1000 ::
           BEvent.chatCall model qidx Lang.hi :: BEvent.sleep 1500 :: r.1,
         MEntry.success q.id q.category
             ⟨q.english, aEN, timeO model qidx Lang.en, aEN.length, sEN⟩
             ⟨q.hindi, aHI, timeO model qidx Lang.hi, aHI.length, sHI⟩ :: r.2.1,
         ((sEN : ℚ) + (sHI : ℚ)) / 2 + r.2.2)

/-- Embedding of JS `Number.prototype.toFixed(1)` on the nonnegative exact
values that occur here: round to the nearest tenth (ties upward, as the
ECMA `toFixed` picks the larger candidate) and print one fractional digit.
The rounded numerator `⌊q·10 + 1/2⌋` is computed on the reduced
numerator/denominator as `(20·num + den) fdiv (2·den)`. -/
def toFixed1 (q : ℚ) : String :=
  let n : Int := Int.fdiv (20 * q.num + (q.den : Int)) (2 * (q.den : Int))
  toString (n / 10) ++ "." ++ toString (n % 10)

/-- The string stored in `avg_score`: `(totalScore / questionCount)
.toFixed(1)`, which is the JS string `"NaN"` when the question list is
empty (`0 / 0` is `NaN`). -/
def avgString (total : ℚ) (n : Nat) : String :=
  if n = 0 then ("NaN") else toFixed1 (total / (n : ℚ))

/-- The summary `runTests` records for a model after its questions
complete (mumbai_llm_test.js lines 117–121): the `.toFixed(1)` string of
`totalScore / QUESTIONS.length`, the total question count, and the
per-model file name. -/
def mkSummary (chatO : String → Nat → Lang → Except String String)
    (timeO : String → Nat → Lang → ℚ) (qs : List Question) (model : String) : ModelSummary :=
  ⟨JVal.str (avgString (runModelQuestions chatO timeO model 0 qs).2.2 qs.length), qs.length,
   model ++ "_results.json"⟩

/-- Embedding of the model loop of `runTests` (mumbai_llm_test.js lines
53–122): skip a model whose availability check fails; otherwise run its
questions, then write `<model>_results.json` — that write is *not* inside
any `try`, so a thrown `IOError` propagates out of `runTests`, ending the
whole run (remaining models unprocessed, no final report); on a successful
write, record the model's summary and continue.  Returns the events, the
summaries accumulated so far, and whether the run aborted. -/
def runModels (chatO : String → Nat → Lang → Except String String)
    (timeO : String → Nat → Lang → ℚ) (listResp : Except String (List String))
    (writeO : String → Option String) (qs : List Question) :
    List String → List (String × ModelSummary) →
      List BEvent × List (String × ModelSummary) × Bool
  | [], acc => ([], acc, false)
  | m :: rest, acc =>
    if isModelAvailable m listResp then
      let r := runModelQuestions chatO timeO m 0 qs
      match writeO (m ++ "_results.json") with
      | some e => (r.1 ++ [BEvent.writeFailed (m ++ "_results.json") e], acc, true)
      | none =>
        let s := runModels chatO timeO listResp writeO qs rest
          (acc ++ [(m, mkSummary chatO timeO qs m)])
        (r.1 ++ BEvent.writeModelFile m (m ++ "_results.json") r.2.1 :: s.1, s.2.1, s.2.2)
    else
      let s := runModels chatO timeO listResp writeO qs rest acc
      (BEvent.skipModel m :: s.1, s.2.1, s.2.2)

/-- Embedding of `runTests` (mumbai_llm_test.js): run the model loop, then
— unless a result-file write aborted the run — set `end_time` and write
`final_report.json`; a failed final write is also uncaught, leaving no
persisted report. -/
def runTests (models : List String) (qs : List Question)
    (listResp : Except String (List String))
    (chatO : String → Nat → Lang → Except String String)
    (timeO : String → Nat → Lang → ℚ) (writeO : String → Option String)
    (startT endT : String) : BatchRun :=
  let r := runModels chatO timeO listResp writeO qs models []
  if r.2.2 then ⟨r.1, none⟩
  else
    match writeO ("final_report.json") with
    | some e => ⟨r.1 ++ [BEvent.writeFailed ("final_report.json") e], none⟩
    | none =>
      let report : FinalReport := ⟨startT, endT, r.2.1⟩
      (⟨r.1 ++ [BEvent.writeFinalReport report], some report⟩ : BatchRun)

/-- Discriminator: is this batch event a chat call? -/
def BEvent.isChat : BEvent → Bool
  | BEvent.chatCall _ _ _ => true
  | _ => false

/-- The spec-side per-question contribution to the batch total: 0 when
either language's call fails, else `(scoreEN + scoreHI) / 2`. -/
def questionContribution (chatO : String → Nat → Lang → Except String String)
    (model : String) (qidx : Nat) (q : Question) : ℚ :=
  match chatO model qidx Lang.en with
  | Except.error _ => 0
  | Except.ok aEN =>
    match chatO model qidx Lang.hi with
    | Except.error _ => 0
    | Except.ok aHI => ((scoreAnswer aEN q.id : ℚ) + (scoreAnswer aHI q.id : ℚ)) / 2

/-- The spec-side sum of per-question contributions, starting at question
index `i`. -/
def sumContrib (chatO : String → Nat → Lang → Except String String) (model : String) :
    Nat → List Question → ℚ
  | _, [] => 0
  | i, q :: rest => questionContribution chatO model i q + sumContrib chatO model (i + 1) rest

/-! ### Concrete batch scenario shared by the batch-mode witnesses -/

/-- A concrete question record. -/
def demoQuestion : Question := ⟨2, "cat", "eq", "hq"⟩

/-- A 60-character answer that scores exactly 50 (no scoring condition
fires). -/
def demoA60 : String := String.mk (List.replicate 60 'a')

/-- A concrete chat oracle: the English call answers with the 60-character
string (score 50), the Hindi call with a 2-character string (score 30, from
the short-answer penalty). -/
def demoChatO : String → Nat → Lang → Except String String := fun _ _ l =>
  match l with
  | Lang.en => Except.ok demoA60
  | Lang.hi => Except.ok ("hi")

/-- A concrete timing oracle. -/
def demoTimeO : String → Nat → Lang → ℚ := fun _ _ _ => 0

/-- A write oracle on which every `fs.writeFile` succeeds. -/
def demoWriteOk : String → Option String := fun _ => none

/-- The result entry the demo scenario produces for `demoQuestion`. -/
def demoEntry : MEntry :=
  MEntry.success 2 ("cat") ⟨"eq", demoA60, 0, 60, 50⟩ ⟨"hq", "hi", 0, 2, 30⟩


/-! ## Theorems -/

/-- Claim C1 (counterexample): on a string of 100 space characters the code
scores 55 (JS `split(' ')` yields 101 fields, which exceeds 100, so the +5
word bonus fires) while the spec's algorithm scores 50 (the whitespace-
delimited word count is 0), so `scoreAnswer` does not equal the spec §4.3
algorithm, whose step 5 uses the whitespace-delimited word count. -/
theorem C1_counterexample :
    scoreAnswer (String.mk (List.replicate 100 ' ')) 2 = 55 ∧
    scoreSpec (String.mk (List.replicate 100 ' ')) 2 = 50 := by
  constructor <;> decide

/-- Claim C1 (amended): `score(a, questionId)` equals the spec §4.3
algorithm with step 5 amended to "add 5 if the number of fields of `a`
split on single space characters, counting empty fields (JS `split(' ')`),
exceeds 100"; all other steps and the final clamp are as the spec states
them. -/
theorem C1_theorem (a : String) (questionId : Int) :
    scoreAnswer a questionId = scoreSpecAmended a questionId := by
  simp only [scoreAnswer, scoreSpecAmended]
  split_ifs <;> decide

/-! ### Single-model mode: loop lemmas -/

/-- The per-question loop never re-creates `results.json` as empty: the
`createEmptyFile` event can only come from `initResultsFile`. -/
theorem singleLoop_no_create (oracle : Nat → Except String String) (ts : Nat → String)
    (base : List SResult) :
    ∀ (qs : List Question) (idx : Nat) (acc : List SResult),
      SEvent.createEmptyFile ∉ (singleLoop oracle ts base idx acc qs).1 := by
  intro qs
  induction qs with
  | nil => intro idx acc; simp [singleLoop]
  | cons q rest ih =>
    intro idx acc
    cases ho : oracle (idx + 1) with
    | error e =>
      simp only [singleLoop, ho]
      simp only [List.mem_cons, not_or]
      exact ⟨by simp, by simp, ih (idx + 1) acc⟩
    | ok content =>
      simp only [singleLoop, ho]
      simp only [List.mem_cons, not_or]
      exact ⟨by simp, by simp, by simp, ih (idx + 1) (acc ++ [⟨q.id, q.english, content, ts idx⟩])⟩

/-- When every per-question chat call throws, the loop produces no entry,
logs one failure per question, and never writes `results.json`. -/
theorem singleLoop_allFail (oracle : Nat → Except String String) (ts : Nat → String)
    (base : List SResult) (hfail : ∀ i, 1 ≤ i → isErrCall (oracle i) = true) :
    ∀ (qs : List Question) (idx : Nat) (acc : List SResult),
      (singleLoop oracle ts base idx acc qs).2 = [] ∧
      ((singleLoop oracle ts base idx acc qs).1.filter SEvent.isFailLog).length = qs.length ∧
      ((singleLoop oracle ts base idx acc qs).1.filter SEvent.isResultWrite) = [] := by
  intro qs
  induction qs with
  | nil => intro idx acc; simp [singleLoop]
  | cons q rest ih =>
    intro idx acc
    cases ho : oracle (idx + 1) with
    | ok content =>
      have h1 := hfail (idx + 1) (by omega)
      rw [ho] at h1
      simp [isErrCall] at h1
    | error e =>
      have ihr := ih (idx + 1) acc
      simp only [singleLoop, ho]
      refine ⟨ihr.1, ?_, ?_⟩
      · simp only [List.filter, SEvent.isFailLog]
        simp only [List.length_cons, List.length]
        rw [ihr.2.1]
      · simp only [List.filter, SEvent.isFailLog, SEvent.isResultWrite]
        exact ihr.2.2

/-- The loop sleeps 2000 ms exactly once per successfully answered question
(the sleep sits inside the `try`, so a failed question does not pause). -/
theorem singleLoop_sleeps (oracle : Nat → Except String String) (ts : Nat → String)
    (base : List SResult) :
    ∀ (qs : List Question) (idx : Nat) (acc : List SResult),
      ((singleLoop oracle ts base idx acc qs).1.filter SEvent.isSleep).length =
        okCount oracle (idx + 1) qs := by
  intro qs
  induction qs with
  | nil => intro idx acc; simp [singleLoop, okCount]
  | cons q rest ih =>
    intro idx acc
    cases ho : oracle (idx + 1) with
    | error e =>
      have ihr := ih (idx + 1) acc
      simp only [singleLoop, okCount, ho, isErrCall]
      simp only [List.filter, SEvent.isSleep]
      rw [ihr]
      simp
    | ok content =>
      have ihr := ih (idx + 1) (acc ++ [⟨q.id, q.english, content, ts idx⟩])
      simp only [singleLoop, okCount, ho, isErrCall]
      simp only [List.filter, SEvent.isSleep]
      simp only [List.length_cons]
      rw [ihr]
      simp [Nat.add_comm]

/-- Every write of `results.json` the loop performs has contents
`base ++ acc ++ p` for some nonempty prefix `p` of the entries the loop
produces from this point on. -/
theorem singleLoop_writes (oracle : Nat → Except String String) (ts : Nat → String)
    (base : List SResult) :
    ∀ (qs : List Question) (idx : Nat) (acc : List SResult) (c : List SResult),
      SEvent.fileWrite c ∈ (singleLoop oracle ts base idx acc qs).1 →
      ∃ p, p <+: (singleLoop oracle ts base idx acc qs).2 ∧ c = base ++ acc ++ p := by
  intro qs
  induction qs with
  | nil => intro idx acc c hc; simp [singleLoop] at hc
  | cons q rest ih =>
    intro idx acc c hc
    cases ho : oracle (idx + 1) with
    | error e =>
      simp only [singleLoop, ho] at hc ⊢
      simp only [List.mem_cons] at hc
      rcases hc with h | h | h
      · exact absurd h (by simp)
      · exact absurd h (by simp)
      · exact ih (idx + 1) acc c h
    | ok content =>
      simp only [singleLoop, ho] at hc ⊢
      simp only [List.mem_cons] at hc
      rcases hc with h | h | h | h
      · exact absurd h (by simp)
      · obtain rfl : c = base ++ acc ++ [⟨q.id, q.english, content, ts idx⟩] := by
          simpa using h
        exact ⟨[⟨q.id, q.english, content, ts idx⟩], ⟨_, rfl⟩, rfl⟩
      · exact absurd h (by simp)
      · obtain ⟨p, hp, hcp⟩ := ih (idx + 1) (acc ++ [⟨q.id, q.english, content, ts idx⟩]) c h
        obtain ⟨t, ht⟩ := hp
        refine ⟨⟨q.id, q.english, content, ts idx⟩ :: p, ⟨t, by simp [ht]⟩, ?_⟩
        rw [hcp]
        simp

/-! ### Claims about single-model mode -/

/-- Claim C3 (counterexample): with a chat adapter that always fails, the
very first chat call — the `checkOllama` ping — already throws, and
`checkOllama` responds with `process.exit(1)`: for a one-question input the
run does not exit 0 and logs no per-question failure, contrary to the
claim's "exits with code 0" and "logs N failures (one per question)". -/
theorem C3_counterexample :
    (processQuestions (fun _ => Except.error ("down")) (fun _ => "t") (some [])
        (some [⟨1, "c", "q1", "h1"⟩])).exit ≠ ExitKind.completed ∧
    ((processQuestions (fun _ => Except.error ("down")) (fun _ => "t") (some [])
        (some [⟨1, "c", "q1", "h1"⟩])).trace.filter SEvent.isFailLog).length ≠ 1 := by
  constructor <;> decide

/-- Claim C3 (amended): if the startup ping chat call succeeds and every
per-question chat call fails, single-model mode adds zero entries to
`results.json` (its final contents are exactly the pre-existing entries),
logs one failure per question, and the process ends normally with exit
code 0; when the ping itself also fails, the process instead exits 1 before
any question is attempted. -/
theorem C3_theorem (oracle : Nat → Except String String) (ts : Nat → String)
    (rf : Option (List SResult)) (qs : List Question) (s : String)
    (hping : oracle 0 = Except.ok s)
    (hfail : ∀ i, 1 ≤ i → isErrCall (oracle i) = true) :
    (processQuestions oracle ts rf (some qs)).exit = ExitKind.completed ∧
    (processQuestions oracle ts rf (some qs)).produced = [] ∧
    (processQuestions oracle ts rf (some qs)).finalFile = rf.getD [] ∧
    ((processQuestions oracle ts rf (some qs)).trace.filter SEvent.isFailLog).length =
      qs.length ∧
    ((processQuestions oracle ts rf (some qs)).trace.filter SEvent.isResultWrite) = [] := by
  have hall := singleLoop_allFail oracle ts (rf.getD []) hfail qs 0 []
  cases rf with
  | none =>
    simp only [processQuestions, hping, Option.getD] at hall ⊢
    refine ⟨by trivial, hall.1, by simp [hall.1], ?_, ?_⟩
    · simp only [List.filter, SEvent.isFailLog, List.cons_append, List.nil_append]
      exact hall.2.1
    · simp only [List.filter, SEvent.isFailLog, SEvent.isResultWrite, List.cons_append,
        List.nil_append]
      exact hall.2.2
  | some l =>
    simp only [processQuestions, hping, Option.getD] at hall ⊢
    refine ⟨by trivial, hall.1, by simp [hall.1], ?_, ?_⟩
    · simp only [List.filter, SEvent.isFailLog, List.nil_append]
      exact hall.2.1
    · simp only [List.filter, SEvent.isFailLog, SEvent.isResultWrite, List.nil_append]
      exact hall.2.2

/-- Claim C3 (witness): a concrete one-question run whose ping succeeds and
whose question call fails: no entry is added, one failure is logged, the
run completes with exit code 0. -/
theorem C3_witness :
    (processQuestions (fun i => if i = 0 then Except.ok ("pong") else Except.error ("down"))
        (fun _ => "t") (some [⟨0, "q0", "a0", "t0"⟩]) (some [⟨1, "c", "q1", "h1"⟩])).exit =
      ExitKind.completed ∧
    (processQuestions (fun i => if i = 0 then Except.ok ("pong") else Except.error ("down"))
        (fun _ => "t") (some [⟨0, "q0", "a0", "t0"⟩])
        (some [⟨1, "c", "q1", "h1"⟩])).produced = [] ∧
    (processQuestions (fun i => if i = 0 then Except.ok ("pong") else Except.error ("down"))
        (fun _ => "t") (some [⟨0, "q0", "a0", "t0"⟩])
        (some [⟨1, "c", "q1", "h1"⟩])).finalFile = (some [⟨0, "q0", "a0", "t0"⟩]).getD [] ∧
    ((processQuestions (fun i => if i = 0 then Except.ok ("pong") else Except.error ("down"))
        (fun _ => "t") (some [⟨0, "q0", "a0", "t0"⟩])
        (some [⟨1, "c", "q1", "h1"⟩])).trace.filter SEvent.isFailLog).length =
      [(⟨1, "c", "q1", "h1"⟩ : Question)].length ∧
    ((processQuestions (fun i => if i = 0 then Except.ok ("pong") else Except.error ("down"))
        (fun _ => "t") (some [⟨0, "q0", "a0", "t0"⟩])
        (some [⟨1, "c", "q1", "h1"⟩])).trace.filter SEvent.isResultWrite) = [] :=
  C3_theorem _ _ _ _ ("pong") rfl
    (fun i hi => by
      have h1 : ¬ i = 0 := by omega
      simp [h1, isErrCall])

/-- Claim C4 (counterexample): with the questions file missing, the run
still issues the `checkOllama` ping chat request to the service before it
ever touches `questions.json`, contradicting the claim's "no chat request
is issued to the service in that run". -/
theorem C4_counterexample :
    SEvent.chatCall ("ping") ∈
      (processQuestions (fun _ => Except.ok ("pong")) (fun _ => "t") (some []) none).trace := by
  decide

/-- Claim C4 (amended): if the questions input file is missing or invalid,
the run aborts before any per-question model call — no question entry is
produced and `results.json` is never rewritten — but only after the startup
ping chat request has been issued (the only chat call of the run); the read
error is logged and, when the ping succeeded, the process ends normally
with exit code 0 rather than a fatal nonzero exit. -/
theorem C4_theorem (oracle : Nat → Except String String) (ts : Nat → String)
    (rf : Option (List SResult)) :
    ((processQuestions oracle ts rf none).trace.filter SEvent.isChat) =
      [SEvent.chatCall ("ping")] ∧
    (processQuestions oracle ts rf none).produced = [] ∧
    ((processQuestions oracle ts rf none).trace.filter SEvent.isResultWrite) = [] ∧
    (∀ s, oracle 0 = Except.ok s →
      (processQuestions oracle ts rf none).exit = ExitKind.completed) := by
  cases h0 : oracle 0 <;> cases rf <;>
    simp [processQuestions, h0, SEvent.isChat, SEvent.isResultWrite, List.filter]

/-- Claim C4 (witness): a concrete run with a reachable service and a
missing questions file: the ping is the one chat call and the process still
ends with exit code 0. -/
theorem C4_witness :
    (processQuestions (fun _ => Except.ok ("pong")) (fun _ => "t") (some []) none).exit =
      ExitKind.completed :=
  (C4_theorem (fun _ => Except.ok ("pong")) (fun _ => "t") (some [])).2.2.2 ("pong") rfl

/-- Claim C7 (counterexample): a two-question run whose ping succeeds and
whose per-question calls both fail: the trace shows question 2's chat call
immediately after question 1's failure log, with no sleep event anywhere —
the 2000 ms delay sits inside the JS `try`, so the `catch` path skips it —
contradicting the claim that the delay runs after every question regardless
of outcome. -/
theorem C7_counterexample :
    (processQuestions (fun i => if i = 0 then Except.ok ("pong") else Except.error ("down"))
        (fun _ => "t") (some []) (some [⟨1, "c", "q1", "h1"⟩, ⟨2, "c", "q2", "h2"⟩])).trace =
      [SEvent.chatCall ("ping"), SEvent.chatCall ("q1"), SEvent.logFailure 0 ("down"),
        SEvent.chatCall ("q2"), SEvent.logFailure 1 ("down")] ∧
    SEvent.sleep 2000 ∉
      (processQuestions (fun i => if i = 0 then Except.ok ("pong") else Except.error ("down"))
        (fun _ => "t") (some []) (some [⟨1, "c", "q1", "h1"⟩, ⟨2, "c", "q2", "h2"⟩])).trace := by
  constructor <;> decide

/-- Claim C7 (amended): in single-model mode (with the startup ping
succeeding), the fixed 2000 ms delay is executed exactly once per
successfully answered question, immediately after its result is persisted;
when a question's chat call fails, the `catch` path skips the delay and the
next question is attempted with no pause. -/
theorem C7_theorem (oracle : Nat → Except String String) (ts : Nat → String)
    (rf : Option (List SResult)) (qs : List Question) (s : String)
    (hping : oracle 0 = Except.ok s) :
    ((processQuestions oracle ts rf (some qs)).trace.filter SEvent.isSleep).length =
      okCount oracle 1 qs := by
  have hl := singleLoop_sleeps oracle ts (rf.getD []) qs 0 []
  cases rf with
  | none =>
    simp only [processQuestions, hping, Option.getD] at hl ⊢
    simp only [List.filter, SEvent.isSleep, List.cons_append, List.nil_append]
    exact hl
  | some l =>
    simp only [processQuestions, hping, Option.getD] at hl ⊢
    simp only [List.filter, SEvent.isSleep, List.nil_append]
    exact hl

/-- Claim C7 (witness): a concrete two-question run where question 1 fails
and question 2 succeeds: exactly one sleep event occurs. -/
theorem C7_witness :
    ((processQuestions (fun i => if i = 1 then Except.error ("down") else Except.ok ("fine"))
        (fun _ => "t") (some []) (some [⟨1, "c", "q1", "h1"⟩, ⟨2, "c", "q2", "h2"⟩])).trace.filter
        SEvent.isSleep).length =
      okCount (fun i => if i = 1 then Except.error ("down") else Except.ok ("fine")) 1
        [⟨1, "c", "q1", "h1"⟩, ⟨2, "c", "q2", "h2"⟩] :=
  C7_theorem _ _ _ _ ("fine") rfl

/-- Claim C9: single-model mode creates `results.json` as an empty array
exactly when it was absent, and every write of `results.json` during the
run has contents equal to the pre-existing entries followed by a prefix of
the entries produced by this run — so entries recorded before the run are
never removed or modified by any write of this run. -/
theorem C9_theorem (oracle : Nat → Except String String) (ts : Nat → String)
    (rf : Option (List SResult)) (qf : Option (List Question)) :
    (SEvent.createEmptyFile ∈ (processQuestions oracle ts rf qf).trace ↔ rf = none) ∧
    (∀ c, SEvent.fileWrite c ∈ (processQuestions oracle ts rf qf).trace →
      ∃ p, p <+: (processQuestions oracle ts rf qf).produced ∧ c = rf.getD [] ++ p) := by
  cases h0 : oracle 0 with
  | error e =>
    cases rf <;> cases qf <;> simp [processQuestions, h0]
  | ok s =>
    cases qf with
    | none => cases rf <;> simp [processQuestions, h0]
    | some qs =>
      cases rf with
      | none =>
        have hn := singleLoop_no_create oracle ts [] qs 0 []
        constructor
        · simp [processQuestions, h0]
        · intro c hc
          simp only [processQuestions, h0, Option.getD] at hc ⊢
          simp only [List.cons_append, List.nil_append, List.mem_cons] at hc
          rcases hc with h | h | h
          · exact absurd h (by simp)
          · exact absurd h (by simp)
          · obtain ⟨p, hp, hcp⟩ := singleLoop_writes oracle ts [] qs 0 [] c h
            exact ⟨p, hp, by simpa using hcp⟩
      | some l =>
        have hn := singleLoop_no_create oracle ts l qs 0 []
        constructor
        · simp [processQuestions, h0, hn]
        · intro c hc
          simp only [processQuestions, h0, Option.getD] at hc ⊢
          simp only [List.nil_append, List.mem_cons] at hc
          rcases hc with h | h
          · exact absurd h (by simp)
          · obtain ⟨p, hp, hcp⟩ := singleLoop_writes oracle ts l qs 0 [] c h
            exact ⟨p, hp, by simpa using hcp⟩

/-- Claim C9 (witness): a concrete run over a pre-existing `results.json`
with one prior entry and one succeeding question: the single write of the
run persists the prior entry followed by the new one. -/
theorem C9_witness :
    ∃ p, p <+: (processQuestions (fun _ => Except.ok ("ans")) (fun _ => "t")
        (some [⟨0, "q0", "a0", "t0"⟩]) (some [⟨1, "c", "q1", "h1"⟩])).produced ∧
      [(⟨0, "q0", "a0", "t0"⟩ : SResult), ⟨1, "q1", "ans", "t"⟩] =
        (some [(⟨0, "q0", "a0", "t0"⟩ : SResult)]).getD [] ++ p :=
  (C9_theorem (fun _ => Except.ok ("ans")) (fun _ => "t") (some [⟨0, "q0", "a0", "t0"⟩])
      (some [⟨1, "c", "q1", "h1"⟩])).2
    [⟨0, "q0", "a0", "t0"⟩, ⟨1, "q1", "ans", "t"⟩] (by decide)

/-! ### Batch mode: lemmas -/

/-- The per-question loop records exactly one entry per question, success
or failure. -/
theorem runModelQuestions_length (chatO : String → Nat → Lang → Except String String)
    (timeO : String → Nat → Lang → ℚ) (model : String) :
    ∀ (qs : List Question) (i : Nat),
      (runModelQuestions chatO timeO model i qs).2.1.length = qs.length := by
  intro qs
  induction qs with
  | nil => intro i; simp [runModelQuestions]
  | cons q rest ih =>
    intro i
    cases hen : chatO model i Lang.en with
    | error e => simp [runModelQuestions, hen, ih (i + 1)]
    | ok aEN =>
      cases hhi : chatO model i Lang.hi with
      | error e => simp [runModelQuestions, hen, hhi, ih (i + 1)]
      | ok aHI => simp [runModelQuestions, hen, hhi, ih (i + 1)]

/-- The per-question loop emits no file-write event of any kind. -/
theorem runModelQuestions_noWrite (chatO : String → Nat → Lang → Except String String)
    (timeO : String → Nat → Lang → ℚ) (model : String) :
    ∀ (qs : List Question) (i : Nat) (mo p : String) (c : List MEntry),
      BEvent.writeModelFile mo p c ∉ (runModelQuestions chatO timeO model i qs).1 := by
  intro qs
  induction qs with
  | nil => intro i mo p c; simp [runModelQuestions]
  | cons q rest ih =>
    intro i mo p c
    cases hen : chatO model i Lang.en with
    | error e => simp [runModelQuestions, hen, ih (i + 1)]
    | ok aEN =>
      cases hhi : chatO model i Lang.hi with
      | error e => simp [runModelQuestions, hen, hhi, ih (i + 1)]
      | ok aHI => simp [runModelQuestions, hen, hhi, ih (i + 1)]

/-- Every chat-call event the per-question loop emits carries the loop's
own model name. -/
theorem runModelQuestions_chatModel (chatO : String → Nat → Lang → Except String String)
    (timeO : String → Nat → Lang → ℚ) (model : String) :
    ∀ (qs : List Question) (i : Nat) (mo : String) (qi : Nat) (l : Lang),
      BEvent.chatCall mo qi l ∈ (runModelQuestions chatO timeO model i qs).1 → mo = model := by
  intro qs
  induction qs with
  | nil => intro i mo qi l h; simp [runModelQuestions] at h
  | cons q rest ih =>
    intro i mo qi l h
    cases hen : chatO model i Lang.en with
    | error e =>
      simp only [runModelQuestions, hen, List.mem_cons] at h
      rcases h with h | h | h | h
      · cases h; rfl
      · exact absurd h (by simp)
      · exact absurd h (by simp)
      · exact ih (i + 1) mo qi l h
    | ok aEN =>
      cases hhi : chatO model i Lang.hi with
      | error e =>
        simp only [runModelQuestions, hen, hhi, List.mem_cons] at h
        rcases h with h | h | h | h | h | h
        · cases h; rfl
        · exact absurd h (by simp)
        · cases h; rfl
        · exact absurd h (by simp)
        · exact absurd h (by simp)
        · exact ih (i + 1) mo qi l h
      | ok aHI =>
        simp only [runModelQuestions, hen, hhi, List.mem_cons] at h
        rcases h with h | h | h | h | h
        · cases h; rfl
        · exact absurd h (by simp)
        · cases h; rfl
        · exact absurd h (by simp)
        · exact ih (i + 1) mo qi l h

/-- The loop's accumulated `totalScore` is the sum of the spec-side
per-question contributions. -/
theorem runModelQuestions_total (chatO : String → Nat → Lang → Except String String)
    (timeO : String → Nat → Lang → ℚ) (model : String) :
    ∀ (qs : List Question) (i : Nat),
      (runModelQuestions chatO timeO model i qs).2.2 = sumContrib chatO model i qs := by
  intro qs
  induction qs with
  | nil => intro i; simp [runModelQuestions, sumContrib]
  | cons q rest ih =>
    intro i
    cases hen : chatO model i Lang.en with
    | error e =>
      simp [runModelQuestions, sumContrib, questionContribution, hen, ih (i + 1)]
    | ok aEN =>
      cases hhi : chatO model i Lang.hi with
      | error e =>
        simp [runModelQuestions, sumContrib, questionContribution, hen, hhi, ih (i + 1)]
      | ok aHI =>
        simp [runModelQuestions, sumContrib, questionContribution, hen, hhi, ih (i + 1)]

/-- Every `writeModelFile` event of the model loop writes the per-model
file name of its own model and the *complete* entry list that model's
questions produced. -/
theorem runModels_writes (chatO : String → Nat → Lang → Except String String)
    (timeO : String → Nat → Lang → ℚ) (listResp : Except String (List String))
    (writeO : String → Option String) (qs : List Question) :
    ∀ (models : List String) (acc : List (String × ModelSummary)) (mo p : String)
      (c : List MEntry),
      BEvent.writeModelFile mo p c ∈ (runModels chatO timeO listResp writeO qs models acc).1 →
      p = mo ++ "_results.json" ∧ c = (runModelQuestions chatO timeO mo 0 qs).2.1 := by
  intro models
  induction models with
  | nil => intro acc mo p c h; simp [runModels] at h
  | cons m rest ih =>
    intro acc mo p c h
    by_cases hav : isModelAvailable m listResp
    · simp only [runModels, hav, if_true] at h
      cases hw : writeO (m ++ "_results.json") with
      | some e =>
        rw [hw] at h
        simp only [List.mem_append, List.mem_singleton] at h
        rcases h with h | h
        · exact absurd h (runModelQuestions_noWrite chatO timeO m qs 0 mo p c)
        · exact absurd h (by simp)
      | none =>
        rw [hw] at h
        simp only [List.mem_append, List.mem_cons] at h
        rcases h with h | h | h
        · exact absurd h (runModelQuestions_noWrite chatO timeO m qs 0 mo p c)
        · cases h; exact ⟨rfl, rfl⟩
        · exact ih _ mo p c h
    · simp only [runModels] at h
      rw [if_neg hav] at h
      simp at h
      exact ih _ mo p c h

/-- Every summary pair the model loop returns beyond its accumulator
belongs to an available model and is that model's `mkSummary`. -/
theorem runModels_sums (chatO : String → Nat → Lang → Except String String)
    (timeO : String → Nat → Lang → ℚ) (listResp : Except String (List String))
    (writeO : String → Option String) (qs : List Question) :
    ∀ (models : List String) (acc : List (String × ModelSummary)) (m : String)
      (s : ModelSummary),
      (m, s) ∈ (runModels chatO timeO listResp writeO qs models acc).2.1 →
      (m, s) ∈ acc ∨
        (isModelAvailable m listResp = true ∧ s = mkSummary chatO timeO qs m) := by
  intro models
  induction models with
  | nil => intro acc m s h; simp only [runModels] at h; exact Or.inl h
  | cons m0 rest ih =>
    intro acc m s h
    by_cases hav : isModelAvailable m0 listResp
    · simp only [runModels, hav, if_true] at h
      cases hw : writeO (m0 ++ "_results.json") with
      | some e => rw [hw] at h; exact Or.inl h
      | none =>
        rw [hw] at h
        rcases ih (acc ++ [(m0, mkSummary chatO timeO qs m0)]) m s h with h2 | h2
        · simp only [List.mem_append, List.mem_singleton] at h2
          rcases h2 with h2 | h2
          · exact Or.inl h2
          · cases h2
            exact Or.inr ⟨hav, rfl⟩
        · exact Or.inr h2
    · simp only [runModels] at h
      rw [if_neg hav] at h
      exact ih acc m s h

/-- A model whose availability check fails contributes no chat call and no
result-file write to the model loop's trace. -/
theorem runModels_unavail (chatO : String → Nat → Lang → Except String String)
    (timeO : String → Nat → Lang → ℚ) (listResp : Except String (List String))
    (writeO : String → Option String) (qs : List Question) (m : String)
    (hm : isModelAvailable m listResp = false) :
    ∀ (models : List String) (acc : List (String × ModelSummary)),
      (∀ (qi : Nat) (l : Lang),
        BEvent.chatCall m qi l ∉ (runModels chatO timeO listResp writeO qs models acc).1) ∧
      (∀ (p : String) (c : List MEntry),
        BEvent.writeModelFile m p c ∉
          (runModels chatO timeO listResp writeO qs models acc).1) := by
  intro models
  induction models with
  | nil => intro acc; constructor <;> intro _ _ <;> simp [runModels]
  | cons m0 rest ih =>
    intro acc
    by_cases hav : isModelAvailable m0 listResp
    · have hne : m ≠ m0 := by
        intro hEq
        rw [hEq] at hm
        rw [hm] at hav
        exact absurd hav (by simp)
      constructor
      · intro qi l hmem
        simp only [runModels, hav, if_true] at hmem
        cases hw : writeO (m0 ++ "_results.json") with
        | some e =>
          rw [hw] at hmem
          simp only [List.mem_append, List.mem_singleton] at hmem
          rcases hmem with h | h
          · exact hne (runModelQuestions_chatModel chatO timeO m0 qs 0 m qi l h)
          · exact absurd h (by simp)
        | none =>
          rw [hw] at hmem
          simp only [List.mem_append, List.mem_cons] at hmem
          rcases hmem with h | h | h
          · exact hne (runModelQuestions_chatModel chatO timeO m0 qs 0 m qi l h)
          · exact absurd h (by simp)
          · exact (ih _).1 qi l h
      · intro p c hmem
        simp only [runModels, hav, if_true] at hmem
        cases hw : writeO (m0 ++ "_results.json") with
        | some e =>
          rw [hw] at hmem
          simp only [List.mem_append, List.mem_singleton] at hmem
          rcases hmem with h | h
          · exact runModelQuestions_noWrite chatO timeO m0 qs 0 m p c h
          · exact absurd h (by simp)
        | none =>
          rw [hw] at hmem
          simp only [List.mem_append, List.mem_cons] at hmem
          rcases hmem with h | h | h
          · exact runModelQuestions_noWrite chatO timeO m0 qs 0 m p c h
          · cases h with
            | refl => exact hne rfl
          · exact (ih _).2 p c h
    · constructor
      · intro qi l hmem
        simp only [runModels] at hmem
        rw [if_neg hav] at hmem
        simp at hmem
        exact (ih _).1 qi l hmem
      · intro p c hmem
        simp only [runModels] at hmem
        rw [if_neg hav] at hmem
        simp at hmem
        exact (ih _).2 p c hmem

/-- When `ollama.list()` itself throws, every model is skipped: the model
loop emits one skip event per model, adds no summary, and does not
abort. -/
theorem runModels_listErr (chatO : String → Nat → Lang → Except String String)
    (timeO : String → Nat → Lang → ℚ) (e : String) (writeO : String → Option String)
    (qs : List Question) :
    ∀ (models : List String) (acc : List (String × ModelSummary)),
      runModels chatO timeO (Except.error e) writeO qs models acc =
        (models.map BEvent.skipModel, acc, false) := by
  intro models
  induction models with
  | nil => intro acc; simp [runModels]
  | cons m rest ih =>
    intro acc
    have hav : isModelAvailable m (Except.error e) = false := rfl
    simp [runModels, hav, ih acc]

/-- Skip events are not chat calls: filtering a pure skip trace for chat
calls yields nothing. -/
theorem skip_filter_chat (models : List String) :
    (models.map BEvent.skipModel).filter BEvent.isChat = [] := by
  induction models with
  | nil => rfl
  | cons m rest ih => simp [BEvent.isChat, ih]

/-- The trace of `runTests` is the model loop's trace followed by a tail
(nothing, a failed-final-write event, or the final-report write) that holds
no result-file write and no chat call. -/
theorem runTests_trace_shape (models : List String) (qs : List Question)
    (listResp : Except String (List String))
    (chatO : String → Nat → Lang → Except String String)
    (timeO : String → Nat → Lang → ℚ) (writeO : String → Option String)
    (startT endT : String) :
    ∃ tail,
      (runTests models qs listResp chatO timeO writeO startT endT).trace =
        (runModels chatO timeO listResp writeO qs models []).1 ++ tail ∧
      (∀ (mo p : String) (c : List MEntry), BEvent.writeModelFile mo p c ∉ tail) ∧
      (∀ (mo : String) (qi : Nat) (l : Lang), BEvent.chatCall mo qi l ∉ tail) := by
  simp only [runTests]
  by_cases hab : (runModels chatO timeO listResp writeO qs models []).2.2 = true
  · rw [if_pos hab]
    exact ⟨[], by simp, by simp, by simp⟩
  · rw [if_neg hab]
    cases hw : writeO ("final_report.json") with
    | some e =>
      exact ⟨[BEvent.writeFailed ("final_report.json") e], by simp, by simp, by simp⟩
    | none =>
      exact ⟨[BEvent.writeFinalReport
          ⟨startT, endT, (runModels chatO timeO listResp writeO qs models []).2.1⟩],
        by simp, by simp, by simp⟩

/-- When `runTests` persists a final report, that report carries the two
timestamps and exactly the summaries the model loop accumulated. -/
theorem runTests_report (models : List String) (qs : List Question)
    (listResp : Except String (List String))
    (chatO : String → Nat → Lang → Except String String)
    (timeO : String → Nat → Lang → ℚ) (writeO : String → Option String)
    (startT endT : String) (rep : FinalReport)
    (hrep : (runTests models qs listResp chatO timeO writeO startT endT).finalReportWritten =
      some rep) :
    rep = ⟨startT, endT, (runModels chatO timeO listResp writeO qs models []).2.1⟩ := by
  simp only [runTests] at hrep
  by_cases hab : (runModels chatO timeO listResp writeO qs models []).2.2 = true
  · rw [if_pos hab] at hrep
    exact absurd hrep (by simp)
  · rw [if_neg hab] at hrep
    cases hw : writeO ("final_report.json") with
    | some e =>
      rw [hw] at hrep
      exact absurd hrep (by simp)
    | none =>
      rw [hw] at hrep
      exact (Option.some.inj hrep).symm

/-- With an unreachable list endpoint and a writable report file,
`runTests` degenerates to a skip trace plus an empty-models report. -/
theorem runTests_listErr (models : List String) (qs : List Question)
    (chatO : String → Nat → Lang → Except String String)
    (timeO : String → Nat → Lang → ℚ) (writeO : String → Option String)
    (startT endT : String) (e : String)
    (hw : writeO ("final_report.json") = none) :
    runTests models qs (Except.error e) chatO timeO writeO startT endT =
      ⟨models.map BEvent.skipModel ++ [BEvent.writeFinalReport ⟨startT, endT, []⟩],
       some ⟨startT, endT, []⟩⟩ := by
  have hr := runModels_listErr chatO timeO e writeO qs models []
  simp [runTests, hr, hw]

/-! ### Claims about batch mode -/

/-- The demo run (one available model, one question, scores 50 and 30,
mean 40) writes a final report whose one summary stores, as `avg_score`,
the `JVal.str` of the `toFixed(1)` string of the mean — not a JSON
number. -/
theorem demoRun_report :
    (runTests ["llama3"] [demoQuestion] (Except.ok ["llama3:latest"]) demoChatO demoTimeO
        demoWriteOk "s" "e").finalReportWritten =
      some ⟨"s", "e", [("llama3",
        ⟨JVal.str (avgString (sumContrib demoChatO ("llama3") 0 [demoQuestion]) 1), 1,
         ("llama3" ++ "_results.json" : String)⟩)]⟩ := by
  have h0 : isModelAvailable ("llama3") (Except.ok ["llama3:latest"]) = true := by decide
  have ht := runModelQuestions_total demoChatO demoTimeO ("llama3") [demoQuestion] 0
  simp [runTests, runModels, h0, demoWriteOk, mkSummary, ht]

/-- Claim C2 (counterexample): in the demo run (one available model, one
question, scores 50 and 30, mean 40) the summary stored for the model has
`avg_score` equal to a `JVal.str` — `runTests` stores
`(totalScore / QUESTIONS.length).toFixed(1)`, and JS `toFixed` returns a
string — so it is not a float equal to the mean: in particular it differs
from the JSON number 40, the mean at this input. -/
theorem C2_counterexample :
    (runTests ["llama3"] [demoQuestion] (Except.ok ["llama3:latest"]) demoChatO demoTimeO
        demoWriteOk "s" "e").finalReportWritten =
      some ⟨"s", "e", [("llama3",
        ⟨JVal.str (avgString (sumContrib demoChatO ("llama3") 0 [demoQuestion]) 1), 1,
         ("llama3" ++ "_results.json" : String)⟩)]⟩ ∧
    JVal.str (avgString (sumContrib demoChatO ("llama3") 0 [demoQuestion]) 1) ≠ JVal.num 40 :=
  ⟨demoRun_report, by simp⟩

/-- Claim C2 (amended): in batch mode, the summary written for an available
model in the final report has `total_questions` equal to the total question
count, and `avg_score` equal to the *string* produced by formatting the
mean to one decimal place (JS `.toFixed(1)`), where the mean is the sum
over all questions of `(scoreEN + scoreHI) / 2` — errored questions
contributing 0 — divided by the total question count (including errored
questions). -/
theorem C2_theorem (models : List String) (qs : List Question)
    (listResp : Except String (List String))
    (chatO : String → Nat → Lang → Except String String)
    (timeO : String → Nat → Lang → ℚ) (writeO : String → Option String)
    (startT endT : String) (m : String) (s : ModelSummary) (rep : FinalReport)
    (hrep : (runTests models qs listResp chatO timeO writeO startT endT).finalReportWritten =
      some rep)
    (hmem : (m, s) ∈ rep.models) :
    s.total_questions = qs.length ∧
    s.avg_score = JVal.str (avgString (sumContrib chatO m 0 qs) qs.length) := by
  have hrepEq := runTests_report models qs listResp chatO timeO writeO startT endT rep hrep
  subst hrepEq
  rcases runModels_sums chatO timeO listResp writeO qs models [] m s hmem with h | h
  · simp at h
  · rcases h with ⟨hav, hsum⟩
    rw [hsum]
    unfold mkSummary
    rw [runModelQuestions_total chatO timeO m qs 0]
    exact ⟨rfl, rfl⟩

/-- Claim C2 (witness): in the demo run the one summary written satisfies
the amended description: `total_questions = 1` and `avg_score` is the
`toFixed(1)` string of the mean of the per-question contributions. -/
theorem C2_witness :
    (⟨JVal.str (avgString (sumContrib demoChatO ("llama3") 0 [demoQuestion]) 1), 1,
      ("llama3" ++ "_results.json" : String)⟩ : ModelSummary).total_questions =
      [demoQuestion].length ∧
    (⟨JVal.str (avgString (sumContrib demoChatO ("llama3") 0 [demoQuestion]) 1), 1,
      ("llama3" ++ "_results.json" : String)⟩ : ModelSummary).avg_score =
      JVal.str (avgString (sumContrib demoChatO ("llama3") 0 [demoQuestion])
        [demoQuestion].length) :=
  C2_theorem ["llama3"] [demoQuestion] (Except.ok ["llama3:latest"]) demoChatO demoTimeO
    demoWriteOk "s" "e" "llama3"
    ⟨JVal.str (avgString (sumContrib demoChatO ("llama3") 0 [demoQuestion]) 1), 1,
      ("llama3" ++ "_results.json" : String)⟩
    ⟨"s", "e", [("llama3",
      ⟨JVal.str (avgString (sumContrib demoChatO ("llama3") 0 [demoQuestion]) 1), 1,
       ("llama3" ++ "_results.json" : String)⟩)]⟩
    demoRun_report (by simp)

/-- Claim C5 (code evaluated at the failing input): `fs.writeFile` of the
per-model result file sits outside every `try` in `runTests`, so when
writing model m1's file throws, the exception propagates out of the model
loop: in a two-model run where both models are available and m1's write
fails, the trace ends at the failed write — model m2 is never queried, no
result file event exists for it, and no final report is written — instead
of the claimed log-and-continue behavior. -/
theorem C5_theorem :
    runTests ["m1", "m2"] [⟨1, "c", "e", "h"⟩] (Except.ok ["m1", "m2"])
        (fun _ _ _ => Except.ok ("ans")) demoTimeO
        (fun p => if p = "m1_results.json" then some ("EACCES") else none) "s" "e" =
      ⟨[BEvent.chatCall ("m1") 0 Lang.en, BEvent.sleep 1000, BEvent.chatCall ("m1") 0 Lang.hi,
         BEvent.sleep 1500, BEvent.writeFailed ("m1_results.json") ("EACCES")], none⟩ := by
  decide

/-- Claim C6: every write of a per-model result file in a batch run writes
that model's file name and the complete entry list for the full question
set — one entry per question — so no partial result list is ever written
mid-iteration; the write can only appear after all of the model's questions
were processed, since its contents are the whole processed list. -/
theorem C6_theorem (models : List String) (qs : List Question)
    (listResp : Except String (List String))
    (chatO : String → Nat → Lang → Except String String)
    (timeO : String → Nat → Lang → ℚ) (writeO : String → Option String)
    (startT endT : String) (mo p : String) (c : List MEntry)
    (hmem : BEvent.writeModelFile mo p c ∈
      (runTests models qs listResp chatO timeO writeO startT endT).trace) :
    p = mo ++ "_results.json" ∧ c = (runModelQuestions chatO timeO mo 0 qs).2.1 ∧
    c.length = qs.length := by
  obtain ⟨tail, htr, hnw, hnc⟩ :=
    runTests_trace_shape models qs listResp chatO timeO writeO startT endT
  rw [htr, List.mem_append] at hmem
  rcases hmem with h | h
  · obtain ⟨hp, hc⟩ := runModels_writes chatO timeO listResp writeO qs models [] mo p c h
    refine ⟨hp, hc, ?_⟩
    rw [hc]
    exact runModelQuestions_length chatO timeO mo qs 0
  · exact absurd h (hnw mo p c)

/-- Claim C6 (witness): the demo run's one result-file write carries the
model's file name and the complete one-entry list. -/
theorem C6_witness :
    "llama3_results.json" = "llama3" ++ "_results.json" ∧
    [demoEntry] = (runModelQuestions demoChatO demoTimeO "llama3" 0 [demoQuestion]).2.1 ∧
    ([demoEntry] : List MEntry).length = [demoQuestion].length :=
  C6_theorem ["llama3"] [demoQuestion] (Except.ok ["llama3:latest"]) demoChatO demoTimeO
    demoWriteOk "s" "e" "llama3" "llama3_results.json" [demoEntry] (by decide)

/-- Claim C8: a model whose availability check returns false is skipped
entirely in batch mode: no chat call of the run carries its name, no
result-file write event exists for it, and it is absent from the models
mapping of any final report the run writes. -/
theorem C8_theorem (models : List String) (qs : List Question)
    (listResp : Except String (List String))
    (chatO : String → Nat → Lang → Except String String)
    (timeO : String → Nat → Lang → ℚ) (writeO : String → Option String)
    (startT endT : String) (m : String)
    (hm : isModelAvailable m listResp = false) :
    (∀ (qi : Nat) (l : Lang), BEvent.chatCall m qi l ∉
      (runTests models qs listResp chatO timeO writeO startT endT).trace) ∧
    (∀ (p : String) (c : List MEntry), BEvent.writeModelFile m p c ∉
      (runTests models qs listResp chatO timeO writeO startT endT).trace) ∧
    (∀ rep, (runTests models qs listResp chatO timeO writeO startT endT).finalReportWritten =
        some rep →
      ∀ s : ModelSummary, (m, s) ∉ rep.models) := by
  obtain ⟨tail, htr, hnw, hnc⟩ :=
    runTests_trace_shape models qs listResp chatO timeO writeO startT endT
  refine ⟨?_, ?_, ?_⟩
  · intro qi l hmem
    rw [htr, List.mem_append] at hmem
    rcases hmem with h | h
    · exact (runModels_unavail chatO timeO listResp writeO qs m hm models []).1 qi l h
    · exact hnc m qi l h
  · intro p c hmem
    rw [htr, List.mem_append] at hmem
    rcases hmem with h | h
    · exact (runModels_unavail chatO timeO listResp writeO qs m hm models []).2 p c h
    · exact hnw m p c h
  · intro rep hrep s hmem
    have hrepEq := runTests_report models qs listResp chatO timeO writeO startT endT rep hrep
    subst hrepEq
    rcases runModels_sums chatO timeO listResp writeO qs models [] m s hmem with h | h
    · simp at h
    · rw [hm] at h
      exact absurd h.1 (by simp)

/-- Claim C8 (witness): in a two-model demo run where only `llama3` is
installed, the unavailable model `mistral` is never queried. -/
theorem C8_witness :
    BEvent.chatCall ("mistral") 0 Lang.en ∉
      (runTests ["llama3", "mistral"] [demoQuestion] (Except.ok ["llama3:latest"]) demoChatO
        demoTimeO demoWriteOk "s" "e").trace :=
  by
  have h := C8_theorem ["llama3", "mistral"] [demoQuestion] (Except.ok ["llama3:latest"])
    demoChatO demoTimeO demoWriteOk "s" "e" "mistral" (by decide)
  exact h.1 0 Lang.en

/-- Claim C10: `isModelAvailable` never raises — an errored
`ollama.list()` query yields `false` for every model name — so with an
unreachable service (and a writable report file) a batch run skips every
model, issues no chat call at all, and still writes the final report with
an empty models mapping. -/
theorem C10_theorem (models : List String) (qs : List Question)
    (chatO : String → Nat → Lang → Except String String)
    (timeO : String → Nat → Lang → ℚ) (writeO : String → Option String)
    (startT endT : String) (m e : String) :
    isModelAvailable m (Except.error e) = false ∧
    (writeO ("final_report.json") = none →
      (runTests models qs (Except.error e) chatO timeO writeO startT
          endT).finalReportWritten = some ⟨startT, endT, []⟩ ∧
      ((runTests models qs (Except.error e) chatO timeO writeO startT endT).trace.filter
        BEvent.isChat) = []) := by
  refine ⟨rfl, fun hw => ?_⟩
  rw [runTests_listErr models qs chatO timeO writeO startT endT e hw]
  refine ⟨rfl, ?_⟩
  rw [List.filter_append, skip_filter_chat]
  simp [BEvent.isChat]

/-- Claim C10 (witness): a demo run against an unreachable service: the
final report is written with no models and the trace holds no chat
call. -/
theorem C10_witness :
    (runTests ["llama3"] [demoQuestion] (Except.error ("no conn")) demoChatO demoTimeO
        demoWriteOk "s" "e").finalReportWritten = some ⟨"s", "e", []⟩ ∧
    ((runTests ["llama3"] [demoQuestion] (Except.error ("no conn")) demoChatO demoTimeO
        demoWriteOk "s" "e").trace.filter BEvent.isChat) = [] :=
  by
  have h := C10_theorem ["llama3"] [demoQuestion] demoChatO demoTimeO demoWriteOk "s" "e"
    ("llama3") ("no conn")
  exact h.2 rfl
